import Mathlib

/-!
Verification development for the anti-tampering dashboard core
(`scripts/anti_tampering_dashboard/app.py`): a line parser, an event
broadcaster with bounded drop-oldest queues, and a file tailer.

The Python code is shallowly embedded: strings are `List Char` (wrapped in
`String` at the interface), the regular expressions `ANTI_TAMPERING_WARN_RE`
and `MISMATCH_RE` are compiled by hand into deterministic matching functions
(their greedy/lazy parts are forced, as argued in the comments), exceptions
become `Option`, and queues/registries become explicit functional state.
Character classes (`\s`, `\d`, `str.strip`) are modelled over their ASCII
content, the character repertoire of the log format being tailed.
-/

namespace TamperGuard

/-- ASCII whitespace, the content of Python's `\s` / `str.strip()` on this
log format's alphabet. -/
def pyIsSpace (c : Char) : Bool :=
  c = ' ' || c = '\t' || c = '\n' || c = '\r' || c = '\x0b' || c = '\x0c'

/-- ASCII decimal digit, the content of `\d` here. -/
def pyIsDigit (c : Char) : Bool := '0' ≤ c && c ≤ '9'

/-- `[0-9a-fA-F]`. -/
def pyIsHex (c : Char) : Bool :=
  ('0' ≤ c && c ≤ '9') || ('a' ≤ c && c ≤ 'f') || ('A' ≤ c && c ≤ 'F')

/-- `[A-Z_]`, the tag-suffix class of `ANTI_TAMPERING_WARN_RE`. -/
def pyIsTagChar (c : Char) : Bool := ('A' ≤ c && c ≤ 'Z') || c = '_'

/-- Python `str.strip()`: drop whitespace from both ends. -/
def pstrip (l : List Char) : List Char :=
  ((l.dropWhile pyIsSpace).reverse.dropWhile pyIsSpace).reverse

/-- Python `str.rstrip("\n")`: drop trailing newline characters only. -/
def rstripNl (l : List Char) : List Char :=
  (l.reverse.dropWhile (· = '\n')).reverse

/-- `int()` on a run of decimal digits. -/
def digitsToNat (l : List Char) : Nat :=
  l.foldl (fun acc c => 10 * acc + (c.toNat - '0'.toNat)) 0

/-- Match a literal, returning the remainder. -/
def litP (lit : List Char) (s : List Char) : Option (List Char) :=
  if lit.isPrefixOf s then some (s.drop lit.length) else none

/-- `\s*`: greedy whitespace (deterministic whenever the next pattern atom
cannot match a whitespace character, which is the case at every use site). -/
def skipWs (s : List Char) : List Char := s.dropWhile pyIsSpace

/-- A nonempty greedy run of a character class followed by the remainder;
none if the run is empty.  Deterministic for `\d+`, `[0-9a-fA-F]+`,
`[A-Z_]+`, `[^\]]+` at their use sites because the following literal is
outside the class. -/
def run1 (p : Char → Bool) (s : List Char) : Option (List Char × List Char) :=
  let r := s.takeWhile p
  if r.isEmpty then none else some (r, s.drop r.length)

/--
`ANTI_TAMPERING_WARN_RE.match`, applied (as in `parse_line`) to the stripped
line:

    ^\[(?P<ts>[^\]]+)\]\s*-\s*\[(?P<tag>ANTI_TAMPERING_[A-Z_]+)\]\s*(?P<msg>.*)$

Every quantifier is forced: `[^\]]+` must stop at the first `]`, `\s*` is
followed by a non-space literal, `ANTI_TAMPERING_[A-Z_]+` must stop at the
first character outside `[A-Z_]`, which the following `]` has to be.  `.*$`
(no DOTALL, no MULTILINE) succeeds exactly when the region after the final
`\s*` contains no newline — a trailing newline is impossible here because the
input has been stripped.  Returns `(ts, tag, msg-region)`.
-/
def matchWarnRe (s : List Char) : Option (List Char × List Char × List Char) :=
  match s with
  | '[' :: r1 =>
    match run1 (fun c => !(c = ']')) r1 with
    | none => none
    | some (ts, r2) =>
      match r2 with
      | ']' :: r3 =>
        match skipWs r3 with
        | '-' :: r4 =>
          match skipWs r4 with
          | '[' :: r5 =>
            match litP "ANTI_TAMPERING_".data r5 with
            | none => none
            | some r6 =>
              match run1 pyIsTagChar r6 with
              | none => none
              | some (suffix, r7) =>
                match r7 with
                | ']' :: r8 =>
                  let msg := skipWs r8
                  if msg.contains '\n' then none
                  else some (ts, "ANTI_TAMPERING_".data ++ suffix, msg)
                | _ => none
          | _ => none
        | _ => none
      | _ => none
  | _ => none

/-- The captures of `MISMATCH_RE`: path, size digits, verify_fd sign+digits,
stored hash, computed hash. -/
structure MismatchCaps where
  path : List Char
  size : List Char
  verify_fd : List Char
  stored : List Char
  computed : List Char
deriving DecidableEq, Repr

/--
The part of `MISMATCH_RE` after the lazy `(?P<path>.+?)` group:

    \s*\(size=(?P<size>\d+),\s*verify_fd=(?P<verify_fd>-?\d+)\);\s*
    Stored\ hash:\s*(?P<stored>[0-9a-fA-F]+);\s*
    Computed\ hash:\s*(?P<computed>[0-9a-fA-F]+)

Deterministic: each `\s*` is followed by a non-space literal, each `\d+` /
hex run by a character outside its class, and `-?` must consume a present
`-` because `\d` cannot.
-/
def mismatchTail (s : List Char) : Option (List Char × List Char × List Char × List Char) := do
  let s ← litP "(size=".data (skipWs s)
  let (size, s) ← run1 pyIsDigit s
  let s ← litP ",".data s
  let s ← litP "verify_fd=".data (skipWs s)
  let (fd, s) ←
    match s with
    | '-' :: s' => (run1 pyIsDigit s').map (fun (d, r) => ('-' :: d, r))
    | _ => run1 pyIsDigit s
  let s ← litP ");".data s
  let s ← litP "Stored hash:".data (skipWs s)
  let (stored, s) ← run1 pyIsHex (skipWs s)
  let s ← litP ";".data s
  let s ← litP "Computed hash:".data (skipWs s)
  let (computed, _) ← run1 pyIsHex (skipWs s)
  pure (size, fd, stored, computed)

/-- The lazy `(?P<path>.+?)` group: try path lengths in increasing order
(`acc` is the path matched so far); each `.` refuses `\n`. -/
def findPath (acc : List Char) (s : List Char) :
    Option (MismatchCaps) :=
  match s with
  | [] => none
  | c :: rest =>
    if c = '\n' then none
    else
      match mismatchTail rest with
      | some (size, fd, stored, computed) =>
        some ⟨acc ++ [c], size, fd, stored, computed⟩
      | none => findPath (acc ++ [c]) rest

/-- `MISMATCH_RE.search(msg)`: try each start position left to right; at a
position, match the leading literal `Hash mismatch for file ` and then the
shortest path that lets the tail match. -/
def mismatchSearch (s : List Char) : Option MismatchCaps :=
  match s with
  | [] => none
  | c :: s' =>
    match litP "Hash mismatch for file ".data (c :: s') with
    | some rest =>
      match findPath [] rest with
      | some caps => some caps
      | none => mismatchSearch s'
    | none => mismatchSearch s'

/-- The dataclass `AntiTamperingEvent` (immutable value type).  Optional
fields default to `none` exactly as in the Python dataclass. -/
structure AntiTamperingEvent where
  ts : String
  tag : String
  severity : String
  message : String
  path : Option String := none
  hash_path : Option String := none
  size : Option Int := none
  verify_fd : Option Int := none
  stored : Option String := none
  computed : Option String := none
  raw : Option String := none
deriving DecidableEq, Repr

/-- Python `s.split(sep, 1)` for nonempty `sep`, together with the `in`
containment test: `some (before, after)` at the first occurrence of `sep`,
`none` when `sep` does not occur. -/
def splitFirst (sep : List Char) (s : List Char) : Option (List Char × List Char) :=
  if sep.isPrefixOf s then some ([], s.drop sep.length)
  else
    match s with
    | [] => none
    | c :: s' => (splitFirst sep s').map (fun p => (c :: p.1, p.2))

/-- `int(mm.group("verify_fd"))` on the capture of `-?\d+`. -/
def toIntCap (l : List Char) : Int :=
  match l with
  | '-' :: d => - (digitsToNat d : Int)
  | d => (digitsToNat d : Int)

/-- The `try`-block for the missing-hash-file shape, as an `Option`
(`none` = the guard failed or the block raised and fell through):

    if "Hash file " in msg and " does not exist for file " in msg:
        part = msg.split("Hash file ", 1)[1]
        hash_path, rest = part.split(" does not exist for file ", 1)
        file_path = rest.split(".", 1)[0].strip()

The 2-tuple unpack raises `ValueError` exactly when the second marker does
not occur in `part`; the exception is swallowed by `except Exception: pass`.
`rest.split(".", 1)[0]` is the prefix of `rest` before its first `.` (all of
`rest` when there is no `.`). -/
def missingHashBranch (msg : List Char) : Option (List Char × List Char) :=
  if (splitFirst "Hash file ".data msg).isSome
      && (splitFirst " does not exist for file ".data msg).isSome then
    match splitFirst "Hash file ".data msg with
    | none => none
    | some (_, part) =>
      match splitFirst " does not exist for file ".data part with
      | none => none
      | some (hash_path, rest) =>
        some (pstrip (rest.takeWhile (fun c => !(c = '.'))), pstrip hash_path)
  else none

/-- The `try`-block for the open-descriptor-failure shape:

    if "Failed to open verification fd for file " in msg:
        file_path = msg.split("Failed to open verification fd for file ", 1)[1].strip()

(No statement in this block can raise once the guard holds.) -/
def fdFailBranch (msg : List Char) : Option (List Char) :=
  match splitFirst "Failed to open verification fd for file ".data msg with
  | none => none
  | some (_, rest) => some (pstrip rest)

/-- `parse_line`.  `line.strip()` is matched against the tag grammar; on
failure the result is `None`.  On success the message is tried against the
sub-shapes in order — hash mismatch (severity `danger`), missing hash file,
failed verification fd — and otherwise falls back to a bare warning event.
Every returned event carries `message = msg` (the stripped capture) and
`raw = line.rstrip("\n")`. -/
def parse_line (line : String) : Option AntiTamperingEvent :=
  match matchWarnRe (pstrip line.data) with
  | none => none
  | some (ts, tag, msgRegion) =>
    let msg := pstrip msgRegion
    let raw : String := ⟨rstripNl line.data⟩
    match mismatchSearch msg with
    | some caps =>
      some { ts := ⟨ts⟩, tag := ⟨tag⟩, severity := "danger", message := ⟨msg⟩,
             path := some ⟨caps.path⟩,
             size := some (digitsToNat caps.size : Int),
             verify_fd := some (toIntCap caps.verify_fd),
             stored := some ⟨caps.stored⟩, computed := some ⟨caps.computed⟩,
             raw := some raw }
    | none =>
      match missingHashBranch msg with
      | some (file_path, hash_path) =>
        some { ts := ⟨ts⟩, tag := ⟨tag⟩, severity := "warning", message := ⟨msg⟩,
               path := some ⟨file_path⟩, hash_path := some ⟨hash_path⟩,
               raw := some raw }
      | none =>
        match fdFailBranch msg with
        | some file_path =>
          some { ts := ⟨ts⟩, tag := ⟨tag⟩, severity := "warning", message := ⟨msg⟩,
                 path := some ⟨file_path⟩, raw := some raw }
        | none =>
          some { ts := ⟨ts⟩, tag := ⟨tag⟩, severity := "warning", message := ⟨msg⟩,
                 raw := some raw }

/-! ## Event broadcaster (`EventBus`) -/

/-- `queue.Queue(maxsize=500)` in `EventBus.subscribe`. -/
def QUEUE_MAXSIZE : Nat := 500

/-- The broadcaster state: the lock-guarded set of subscriber queues.
Queues are identified by a handle; `queues` gives each handle's current
buffer contents (oldest first).  `subscribers` is the registry set. -/
structure EventBus where
  subscribers : Finset Nat
  queues : Nat → List String

/-- `q.put_nowait(payload)`: enqueue at the tail, `none` = raises
`queue.Full`. -/
def put_nowait (q : List String) (p : String) : Option (List String) :=
  if q.length < QUEUE_MAXSIZE then some (q ++ [p]) else none

/-- `q.get_nowait()`: dequeue the oldest item, `none` = raises
`queue.Empty`. -/
def get_nowait (q : List String) : Option (String × List String) :=
  match q with
  | [] => none
  | x :: r => some (x, r)

/-- The per-queue body of `EventBus.publish`:

    try:
        q.put_nowait(payload)
    except queue.Full:
        try:
            _ = q.get_nowait()
            q.put_nowait(payload)
        except Exception:
            pass
-/
def publishQueue (p : String) (q : List String) : List String :=
  match put_nowait q p with
  | some q' => q'
  | none =>
    match get_nowait q with
    | none => q
    | some (_, q₁) =>
      match put_nowait q₁ p with
      | some q' => q'
      | none => q₁

/-- `EventBus.subscribe` with the fresh queue named by handle `h`. -/
def subscribe (h : Nat) (bus : EventBus) : EventBus :=
  { subscribers := insert h bus.subscribers,
    queues := Function.update bus.queues h [] }

/-- `EventBus.unsubscribe`: `self._subscribers.discard(q)`. -/
def unsubscribe (h : Nat) (bus : EventBus) : EventBus :=
  { bus with subscribers := bus.subscribers.erase h }

/-- `EventBus.publish`: snapshot the registry, then run the enqueue body on
every member; queues outside the snapshot are untouched. -/
def publish (p : String) (bus : EventBus) : EventBus :=
  { bus with
    queues := fun h =>
      if h ∈ bus.subscribers then publishQueue p (bus.queues h) else bus.queues h }

/-- A sequence of publishes as seen by one subscriber's queue. -/
def publishSeq (ps : List String) (q : List String) : List String :=
  ps.foldl (fun acc p => publishQueue p acc) q

/-! ## File tailer (`tail_file`) -/

/-- The tailer's per-file state: byte offset `pos` and identity
`last_inode = (st_dev, st_ino)` (`none` before the first successful
`stat`). -/
structure TailCursor where
  pos : Nat
  last_inode : Option (Nat × Nat)
deriving DecidableEq, Repr

/-- The observable file at one poll: its identity token and content
(`st_size` is the content length). -/
structure FileState where
  ident : Nat × Nat
  content : List Char
deriving DecidableEq, Repr

/-- `f.readline()` at the head of the remaining content: up to and
including the first newline, or everything that is left (possibly an
unterminated final line), or `[]` at end of stream. -/
def readline (s : List Char) : List Char :=
  let ln := s.takeWhile (fun c => !(c = '\n'))
  if ln.length < s.length then ln ++ ['\n'] else ln

/-- The `while` read loop: `readline` until it returns an empty string,
collecting the lines and tracking `f.tell()`; the returned position is the
one recorded by `pos = f.tell()` on exit.  Fuel is the length of the
remaining content (each `readline` consumes at least one character). -/
def readLoopAux : Nat → List Char → Nat → List (List Char) × Nat
  | 0, _, pos => ([], pos)
  | fuel + 1, s, pos =>
    match readline s with
    | [] => ([], pos)
    | ln =>
      let r := readLoopAux fuel (s.drop ln.length) (pos + ln.length)
      (ln :: r.1, r.2)

/-- `f.seek(pos)` followed by the read loop. -/
def readLoop (content : List Char) (pos : Nat) : List (List Char) × Nat :=
  readLoopAux (content.drop pos).length (content.drop pos) pos

/-- The cursor adjustments at the head of a poll iteration:

    if last_inode != inode:  last_inode = inode; pos = 0
    if st.st_size < pos:     pos = 0
-/
def resetCursor (f : FileState) (cur : TailCursor) : TailCursor :=
  let c₁ := if cur.last_inode ≠ some f.ident
    then { pos := 0, last_inode := some f.ident }
    else cur
  if f.content.length < c₁.pos then { c₁ with pos := 0 } else c₁

/-- One poll iteration of `tail_file` when `path.stat()` succeeds: adjust
the cursor, read from the adjusted offset, and parse each line (the events
are what gets published to the bus).  Returns the updated cursor and the
parsed events in order. -/
def pollStep (f : FileState) (cur : TailCursor) : TailCursor × List AntiTamperingEvent :=
  let c₁ := resetCursor f cur
  let r := readLoop f.content c₁.pos
  ({ pos := r.2, last_inode := c₁.last_inode },
   r.1.filterMap (fun ln => parse_line ⟨ln⟩))

/-- One poll iteration when `path.stat()` raises `FileNotFoundError`:

    last_inode = None; pos = 0
-/
def pollStepMissing (_cur : TailCursor) : TailCursor :=
  { pos := 0, last_inode := none }

/-- Modelled from the spec (§4.2 "read available complete lines"): the
offset just after the last newline-terminated line at or beyond `pos` —
the position the spec's words would record when the file ends in an
unterminated line.  Used only to compare the spec's wording with the
code's behaviour. -/
def specCompleteLinesPos (content : List Char) (pos : Nat) : Nat :=
  content.length - ((content.drop pos).reverse.takeWhile (fun c => !(c = '\n'))).length

/-! ## Helper lemmas -/

/-- A list fixed by `dropWhile` (no satisfying head) is also fixed after
removing a satisfying suffix. -/
theorem dropWhile_rdropWhile_self (p : Char → Bool) (l : List Char)
    (h : List.dropWhile p l = l) :
    List.dropWhile p (List.rdropWhile p l) = List.rdropWhile p l := by
  rw [List.dropWhile_eq_self_iff]
  intro hl hp
  have hpre : List.rdropWhile p l <+: l := List.rdropWhile_prefix _ _
  have hlen : 0 < l.length := lt_of_lt_of_le hl hpre.length_le
  have hget : (List.rdropWhile p l).get ⟨0, hl⟩ = l.get ⟨0, hlen⟩ := by
    simpa using hpre.getElem (n := 0) hl
  have hnot := (List.dropWhile_eq_self_iff.mp h) hlen
  exact hnot (by rwa [hget] at hp)

/-- Stripping is idempotent: a stripped string has no surrounding
whitespace left. -/
theorem pstrip_idem (l : List Char) : pstrip (pstrip l) = pstrip l := by
  have hrw : ∀ m : List Char, pstrip m
      = List.rdropWhile pyIsSpace (List.dropWhile pyIsSpace m) := fun m => rfl
  rw [hrw, hrw,
    dropWhile_rdropWhile_self pyIsSpace _ (List.dropWhile_idempotent _ _),
    List.rdropWhile_idempotent]

/-- `splitFirst` decomposes its input at the separator. -/
theorem splitFirst_eq_append (sep : List Char) :
    ∀ (s a b : List Char), splitFirst sep s = some (a, b) → s = a ++ sep ++ b := by
  intro s
  induction s with
  | nil =>
    intro a b h
    rw [splitFirst] at h
    by_cases hp : sep.isPrefixOf ([] : List Char)
    · rw [if_pos hp] at h
      simp only [Option.some.injEq, Prod.mk.injEq] at h
      obtain ⟨ha, hb⟩ := h
      obtain ⟨t, ht⟩ := List.isPrefixOf_iff_prefix.mp hp
      obtain ⟨hsep, -⟩ := List.append_eq_nil.mp ht
      subst ha; subst hsep
      simp [← hb]
    · rw [if_neg hp] at h
      exact Option.noConfusion h
  | cons c s' ih =>
    intro a b h
    rw [splitFirst] at h
    by_cases hp : sep.isPrefixOf (c :: s')
    · rw [if_pos hp] at h
      simp only [Option.some.injEq, Prod.mk.injEq] at h
      obtain ⟨ha, hb⟩ := h
      obtain ⟨t, ht⟩ := List.isPrefixOf_iff_prefix.mp hp
      subst ha
      have hdrop : List.drop sep.length (c :: s') = t := by
        rw [← ht, List.drop_left]
      rw [← hb, hdrop, ← ht]
      simp
    · rw [if_neg hp] at h
      change (splitFirst sep s').map (fun p => (c :: p.1, p.2)) = some (a, b) at h
      cases hrec : splitFirst sep s' with
      | none => rw [hrec] at h; exact Option.noConfusion h
      | some p =>
        rw [hrec, Option.map_some'] at h
        simp only [Option.some.injEq, Prod.mk.injEq] at h
        obtain ⟨ha, hb⟩ := h
        subst ha; subst hb
        simp [ih p.1 p.2 hrec]

/-- Occurrence of a separator is preserved by prepending. -/
theorem splitFirst_isSome_append (sep : List Char) (x : List Char) (y : List Char)
    (h : (splitFirst sep y).isSome) : (splitFirst sep (x ++ y)).isSome := by
  induction x with
  | nil => simpa using h
  | cons c x' ih =>
    show (splitFirst sep (c :: (x' ++ y))).isSome
    rw [splitFirst]
    by_cases hp : sep.isPrefixOf (c :: (x' ++ y))
    · rw [if_pos hp]; rfl
    · rw [if_neg hp]
      change ((splitFirst sep (x' ++ y)).map (fun p => (c :: p.1, p.2))).isSome
      cases hrec : splitFirst sep (x' ++ y) with
      | none => rw [hrec] at ih; exact absurd ih (by simp)
      | some p => rw [Option.map_some']; rfl

/-! ## C1 -/

/-- C1: a line whose stripped form matches the tag grammar and whose message
matches the hash-mismatch shape parses to an event with severity `danger`
whose path, size, verify_fd, stored and computed fields carry exactly the
captured substrings, size and verify_fd converted to integers. -/
theorem C1_mismatch_event (line : String) (ts tag msgR : List Char)
    (caps : MismatchCaps)
    (hm : matchWarnRe (pstrip line.data) = some (ts, tag, msgR))
    (hs : mismatchSearch (pstrip msgR) = some caps) :
    parse_line line = some
      { ts := ⟨ts⟩, tag := ⟨tag⟩, severity := "danger", message := ⟨pstrip msgR⟩,
        path := some ⟨caps.path⟩,
        size := some (digitsToNat caps.size : Int),
        verify_fd := some (toIntCap caps.verify_fd),
        stored := some ⟨caps.stored⟩, computed := some ⟨caps.computed⟩,
        raw := some ⟨rstripNl line.data⟩ } := by
  simp [parse_line, hm, hs]

/-- C1 witness: the scenario line from the spec. -/
theorem C1_mismatch_event_witness :
    parse_line "[2024-01-01T00:00:00] - [ANTI_TAMPERING_CHECK] Hash mismatch for file /tmp/a.txt (size=10, verify_fd=-1); Stored hash: aa11; Computed hash: bb22"
      = some
      { ts := "2024-01-01T00:00:00", tag := "ANTI_TAMPERING_CHECK",
        severity := "danger",
        message := "Hash mismatch for file /tmp/a.txt (size=10, verify_fd=-1); Stored hash: aa11; Computed hash: bb22",
        path := some "/tmp/a.txt", size := some (10 : Int),
        verify_fd := some (-1 : Int),
        stored := some "aa11", computed := some "bb22",
        raw := some "[2024-01-01T00:00:00] - [ANTI_TAMPERING_CHECK] Hash mismatch for file /tmp/a.txt (size=10, verify_fd=-1); Stored hash: aa11; Computed hash: bb22" } := by
  have h := C1_mismatch_event
    "[2024-01-01T00:00:00] - [ANTI_TAMPERING_CHECK] Hash mismatch for file /tmp/a.txt (size=10, verify_fd=-1); Stored hash: aa11; Computed hash: bb22"
    "2024-01-01T00:00:00".data "ANTI_TAMPERING_CHECK".data
    "Hash mismatch for file /tmp/a.txt (size=10, verify_fd=-1); Stored hash: aa11; Computed hash: bb22".data
    ⟨"/tmp/a.txt".data, "10".data, "-1".data, "aa11".data, "bb22".data⟩
    (by decide) (by decide)
  simpa using h

/-! ## C2 -/

/-- C2: a line that does not match the tag grammar parses to none. -/
theorem C2_nonmatching_none (line : String)
    (h : matchWarnRe (pstrip line.data) = none) : parse_line line = none := by
  simp [parse_line, h]

/-- C2 witness. -/
theorem C2_nonmatching_none_witness :
    matchWarnRe (pstrip "hello world".data) = none
      ∧ parse_line "hello world" = none :=
  ⟨by decide, C2_nonmatching_none "hello world" (by decide)⟩

/-! ## C3 -/

/-- C3: every parsed event has severity `danger` exactly when its message
matched the hash-mismatch shape, and every other severity is `warning`. -/
theorem C3_severity_iff (line : String) (ev : AntiTamperingEvent)
    (h : parse_line line = some ev) :
    (ev.severity = "danger" ↔ (mismatchSearch ev.message.data).isSome)
      ∧ (ev.severity = "danger" ∨ ev.severity = "warning") := by
  have hne : ("warning" : String) ≠ "danger" := by decide
  cases hw : matchWarnRe (pstrip line.data) with
  | none => rw [parse_line, hw] at h; exact Option.noConfusion h
  | some r =>
    obtain ⟨ts, tag, msgR⟩ := r
    cases hs : mismatchSearch (pstrip msgR) with
    | some caps =>
      have he : parse_line line = some
          { ts := ⟨ts⟩, tag := ⟨tag⟩, severity := "danger",
            message := ⟨pstrip msgR⟩, path := some ⟨caps.path⟩,
            size := some (digitsToNat caps.size : Int),
            verify_fd := some (toIntCap caps.verify_fd),
            stored := some ⟨caps.stored⟩, computed := some ⟨caps.computed⟩,
            raw := some ⟨rstripNl line.data⟩ } := by
        simp [parse_line, hw, hs]
      rw [he] at h
      obtain rfl := Option.some.inj h
      refine ⟨?_, Or.inl rfl⟩
      show ("danger" : String) = "danger" ↔ (mismatchSearch (pstrip msgR)).isSome
      simp [hs]
    | none =>
      cases h2 : missingHashBranch (pstrip msgR) with
      | some fphp =>
        obtain ⟨fp, hp⟩ := fphp
        have he : parse_line line = some
            { ts := ⟨ts⟩, tag := ⟨tag⟩, severity := "warning",
              message := ⟨pstrip msgR⟩, path := some ⟨fp⟩,
              hash_path := some ⟨hp⟩, raw := some ⟨rstripNl line.data⟩ } := by
          simp [parse_line, hw, hs, h2]
        rw [he] at h
        obtain rfl := Option.some.inj h
        refine ⟨?_, Or.inr rfl⟩
        show ("warning" : String) = "danger" ↔ (mismatchSearch (pstrip msgR)).isSome
        simp [hs, hne]
      | none =>
        cases h3 : fdFailBranch (pstrip msgR) with
        | some fp =>
          have he : parse_line line = some
              { ts := ⟨ts⟩, tag := ⟨tag⟩, severity := "warning",
                message := ⟨pstrip msgR⟩, path := some ⟨fp⟩,
                raw := some ⟨rstripNl line.data⟩ } := by
            simp [parse_line, hw, hs, h2, h3]
          rw [he] at h
          obtain rfl := Option.some.inj h
          refine ⟨?_, Or.inr rfl⟩
          show ("warning" : String) = "danger" ↔ (mismatchSearch (pstrip msgR)).isSome
          simp [hs, hne]
        | none =>
          have he : parse_line line = some
              { ts := ⟨ts⟩, tag := ⟨tag⟩, severity := "warning",
                message := ⟨pstrip msgR⟩, raw := some ⟨rstripNl line.data⟩ } := by
            simp [parse_line, hw, hs, h2, h3]
          rw [he] at h
          obtain rfl := Option.some.inj h
          refine ⟨?_, Or.inr rfl⟩
          show ("warning" : String) = "danger" ↔ (mismatchSearch (pstrip msgR)).isSome
          simp [hs, hne]

/-- C3 witness: a danger event from the mismatch scenario line. -/
theorem C3_severity_iff_witness :
    (("danger" : String) = "danger"
        ↔ (mismatchSearch ("Hash mismatch for file /a (size=1, verify_fd=2); Stored hash: ab; Computed hash: cd" : String).data).isSome)
      ∧ (("danger" : String) = "danger" ∨ ("danger" : String) = "warning") := by
  have h := C3_severity_iff
    "[t] - [ANTI_TAMPERING_CHECK] Hash mismatch for file /a (size=1, verify_fd=2); Stored hash: ab; Computed hash: cd"
    { ts := "t", tag := "ANTI_TAMPERING_CHECK", severity := "danger",
      message := "Hash mismatch for file /a (size=1, verify_fd=2); Stored hash: ab; Computed hash: cd",
      path := some "/a", size := some (1 : Int), verify_fd := some (2 : Int),
      stored := some "ab", computed := some "cd",
      raw := some "[t] - [ANTI_TAMPERING_CHECK] Hash mismatch for file /a (size=1, verify_fd=2); Stored hash: ab; Computed hash: cd" }
    (by decide)
  simpa using h

/-! ## C4 -/

/-- C4 counterexample: a tag-grammar line with no sub-shape still gets its
`raw` field populated (with the line, trailing newlines stripped), so the
claim that `raw` is absent on fallback events is false. -/
theorem C4_counterexample :
    parse_line "[t] - [ANTI_TAMPERING_CHECK] hello"
      = some { ts := "t", tag := "ANTI_TAMPERING_CHECK", severity := "warning",
               message := "hello",
               raw := some "[t] - [ANTI_TAMPERING_CHECK] hello" }
    ∧ (parse_line "[t] - [ANTI_TAMPERING_CHECK] hello").map AntiTamperingEvent.raw
        ≠ some none := by
  constructor
  · decide
  · decide

/-- C4 (amended): a tag-grammar line on which no sub-shape succeeds parses
to a warning event whose structured payload fields (path, hash_path, size,
verify_fd, stored, computed) are all none, while `raw` is populated with
the line minus trailing newlines. -/
theorem C4_fallback_event (line : String) (ts tag msgR : List Char)
    (hm : matchWarnRe (pstrip line.data) = some (ts, tag, msgR))
    (h1 : mismatchSearch (pstrip msgR) = none)
    (h2 : missingHashBranch (pstrip msgR) = none)
    (h3 : fdFailBranch (pstrip msgR) = none) :
    parse_line line = some
      { ts := ⟨ts⟩, tag := ⟨tag⟩, severity := "warning",
        message := ⟨pstrip msgR⟩, path := none, hash_path := none,
        size := none, verify_fd := none, stored := none, computed := none,
        raw := some ⟨rstripNl line.data⟩ } := by
  simp [parse_line, hm, h1, h2, h3]

/-- C4 witness. -/
theorem C4_fallback_event_witness :
    parse_line "[t] - [ANTI_TAMPERING_CHECK] hello there"
      = some { ts := "t", tag := "ANTI_TAMPERING_CHECK", severity := "warning",
               message := "hello there",
               raw := some "[t] - [ANTI_TAMPERING_CHECK] hello there" } := by
  have h := C4_fallback_event "[t] - [ANTI_TAMPERING_CHECK] hello there"
    "t".data "ANTI_TAMPERING_CHECK".data "hello there".data
    (by decide) (by decide) (by decide) (by decide)
  simpa using h

/-! ## C5 -/

/-- C5: once a line matches the tag grammar, `parse_line` always returns an
event — failed or raising sub-shape attempts fall through and the line is
never dropped. -/
theorem C5_never_dropped (line : String)
    (h : (matchWarnRe (pstrip line.data)).isSome) : (parse_line line).isSome := by
  obtain ⟨⟨ts, tag, msgR⟩, hw⟩ := Option.isSome_iff_exists.mp h
  cases hs : mismatchSearch (pstrip msgR) with
  | some caps => simp [parse_line, hw, hs]
  | none =>
    cases h2 : missingHashBranch (pstrip msgR) with
    | some fphp =>
      obtain ⟨fp, hp⟩ := fphp
      simp [parse_line, hw, hs, h2]
    | none =>
      cases h3 : fdFailBranch (pstrip msgR) with
      | some fp => simp [parse_line, hw, hs, h2, h3]
      | none => simp [parse_line, hw, hs, h2, h3]

/-- C5 witness: a line whose missing-hash-file `try` block raises (second
marker before the first) still yields an event. -/
theorem C5_never_dropped_witness :
    (matchWarnRe (pstrip ("[t] - [ANTI_TAMPERING_A] b does not exist for file x Hash file h" : String).data)).isSome
      ∧ (parse_line "[t] - [ANTI_TAMPERING_A] b does not exist for file x Hash file h").isSome :=
  ⟨by decide,
   C5_never_dropped "[t] - [ANTI_TAMPERING_A] b does not exist for file x Hash file h" (by decide)⟩

/-! ## C6 -/

/-- C6 counterexample: a message that matches the missing-hash-file shape
(both markers present, in order) but also contains the hash-mismatch
shape.  The mismatch sub-parse is tried first, so the event has severity
`danger` and `hash_path = none` — not the warning event with populated
`hash_path` the claim requires for every line matching the shape. -/
theorem C6_counterexample :
    (match splitFirst "Hash file ".data
        ("Hash file /h.sha does not exist for file /f.txt. Hash mismatch for file /a (size=1, verify_fd=1); Stored hash: aa; Computed hash: bb" : String).data with
      | some p => (splitFirst " does not exist for file ".data p.2).isSome
      | none => false) = true
    ∧ parse_line "[t] - [ANTI_TAMPERING_A] Hash file /h.sha does not exist for file /f.txt. Hash mismatch for file /a (size=1, verify_fd=1); Stored hash: aa; Computed hash: bb"
        = some { ts := "t", tag := "ANTI_TAMPERING_A", severity := "danger",
                 message := "Hash file /h.sha does not exist for file /f.txt. Hash mismatch for file /a (size=1, verify_fd=1); Stored hash: aa; Computed hash: bb",
                 path := some "/a", hash_path := none,
                 size := some (1 : Int), verify_fd := some (1 : Int),
                 stored := some "aa", computed := some "bb",
                 raw := some "[t] - [ANTI_TAMPERING_A] Hash file /h.sha does not exist for file /f.txt. Hash mismatch for file /a (size=1, verify_fd=1); Stored hash: aa; Computed hash: bb" } :=
  ⟨by decide, by decide⟩

/-- C6 (amended): for a tag-grammar line not matching the hash-mismatch
shape, whose message contains `Hash file ` followed (within the text after
it) by ` does not exist for file `, the parsed event has severity
`warning`, `hash_path` = the stripped text between the two markers, and
`path` = the text between the second marker and the first literal period
after it (all of it when no period follows), stripped — so a path
containing a period, e.g. `file.v2.txt`, is truncated at the first
period. -/
theorem C6_missing_hash_event (line : String)
    (ts tag msgR pre part hp rest : List Char)
    (hm : matchWarnRe (pstrip line.data) = some (ts, tag, msgR))
    (h1 : mismatchSearch (pstrip msgR) = none)
    (h2 : splitFirst "Hash file ".data (pstrip msgR) = some (pre, part))
    (h3 : splitFirst " does not exist for file ".data part = some (hp, rest)) :
    parse_line line = some
      { ts := ⟨ts⟩, tag := ⟨tag⟩, severity := "warning",
        message := ⟨pstrip msgR⟩,
        path := some ⟨pstrip (rest.takeWhile (fun c => !(c = '.')))⟩,
        hash_path := some ⟨pstrip hp⟩,
        raw := some ⟨rstripNl line.data⟩ } := by
  have hmsg : pstrip msgR = pre ++ "Hash file ".data ++ part :=
    splitFirst_eq_append _ _ _ _ h2
  have hpart : (splitFirst " does not exist for file ".data part).isSome := by
    rw [h3]; rfl
  have hg2 : (splitFirst " does not exist for file ".data (pstrip msgR)).isSome := by
    rw [hmsg]
    exact splitFirst_isSome_append _ (pre ++ "Hash file ".data) part hpart
  have hbranch : missingHashBranch (pstrip msgR)
      = some (pstrip (rest.takeWhile (fun c => !(c = '.'))), pstrip hp) := by
    simp [missingHashBranch, h2, h3, hg2]
  simp [parse_line, hm, h1, hbranch]

/-- C6 witness: a path with interior periods is truncated at the first
one. -/
theorem C6_missing_hash_event_witness :
    parse_line "[t] - [ANTI_TAMPERING_WARN] Hash file /h/a.sha does not exist for file /tmp/file.v2.txt. more"
      = some { ts := "t", tag := "ANTI_TAMPERING_WARN", severity := "warning",
               message := "Hash file /h/a.sha does not exist for file /tmp/file.v2.txt. more",
               path := some "/tmp/file", hash_path := some "/h/a.sha",
               raw := some "[t] - [ANTI_TAMPERING_WARN] Hash file /h/a.sha does not exist for file /tmp/file.v2.txt. more" } := by
  have h := C6_missing_hash_event
    "[t] - [ANTI_TAMPERING_WARN] Hash file /h/a.sha does not exist for file /tmp/file.v2.txt. more"
    "t".data "ANTI_TAMPERING_WARN".data
    "Hash file /h/a.sha does not exist for file /tmp/file.v2.txt. more".data
    [] "/h/a.sha does not exist for file /tmp/file.v2.txt. more".data
    "/h/a.sha".data "/tmp/file.v2.txt. more".data
    (by decide) (by decide) (by decide) (by decide)
  simpa using h

/-! ## C7 -/

/-- A queue with room: the payload is appended at the tail. -/
theorem publishQueue_not_full (p : String) (q : List String)
    (h : q.length < QUEUE_MAXSIZE) : publishQueue p q = q ++ [p] := by
  simp [publishQueue, put_nowait, h]

/-- A full queue: exactly one oldest item is dropped, then the payload is
appended. -/
theorem publishQueue_full (p : String) (q : List String)
    (h : q.length = QUEUE_MAXSIZE) : publishQueue p q = q.drop 1 ++ [p] := by
  have h500 : QUEUE_MAXSIZE = 500 := rfl
  rcases q with _ | ⟨x, r⟩
  · rw [List.length_nil, h500] at h; omega
  · have hfull : ¬ (r.length + 1 < QUEUE_MAXSIZE) := by
      rw [List.length_cons] at h; omega
    have hr : r.length < QUEUE_MAXSIZE := by
      rw [List.length_cons] at h; omega
    simp [publishQueue, put_nowait, get_nowait, hfull, hr]

/-- Successive publishes leave the queue a suffix of the pushed sequence
(prefixed by the surviving old items): delivery order equals publish order
except for drop-oldest. -/
theorem publishSeq_suffix (ps : List String) :
    ∀ q : List String, q.length ≤ QUEUE_MAXSIZE →
      publishSeq ps q = (q ++ ps).drop (q.length + ps.length - QUEUE_MAXSIZE) := by
  have h500 : QUEUE_MAXSIZE = 500 := rfl
  induction ps with
  | nil =>
    intro q hq
    show q = (q ++ ([] : List String)).drop
      (q.length + List.length ([] : List String) - QUEUE_MAXSIZE)
    have hidx : q.length + List.length ([] : List String) - QUEUE_MAXSIZE = 0 := by
      simp; omega
    rw [List.append_nil, hidx, List.drop_zero]
  | cons p ps ih =>
    intro q hq
    have hstep : publishSeq (p :: ps) q = publishSeq ps (publishQueue p q) := rfl
    rcases lt_or_ge q.length QUEUE_MAXSIZE with hlt | hge
    · rw [hstep, publishQueue_not_full p q hlt,
        ih (q ++ [p]) (by simp; omega)]
      have hidx : (q ++ [p]).length + ps.length - QUEUE_MAXSIZE
          = q.length + (p :: ps).length - QUEUE_MAXSIZE := by
        simp; omega
      have hlist : (q ++ [p]) ++ ps = q ++ p :: ps := by simp
      rw [hidx, hlist]
    · have heq : q.length = QUEUE_MAXSIZE := le_antisymm hq hge
      rcases q with _ | ⟨y, q'⟩
      · rw [List.length_nil, h500] at heq; omega
      · rw [hstep, publishQueue_full p (y :: q') heq]
        have hlen2 : ((y :: q').drop 1 ++ [p]).length ≤ QUEUE_MAXSIZE := by
          rw [List.length_cons] at heq; simp; omega
        rw [ih _ hlen2]
        have hL : ((y :: q').drop 1 ++ [p]) ++ ps = ((y :: q') ++ p :: ps).drop 1 := by
          simp
        rw [hL, List.drop_drop]
        have hidx2 : 1 + (((y :: q').drop 1 ++ [p]).length + ps.length - QUEUE_MAXSIZE)
            = (y :: q').length + (p :: ps).length - QUEUE_MAXSIZE := by
          rw [List.length_cons] at heq ⊢
          simp
          omega
        rw [hidx2]

/-- C7: publish is total and treats subscribers independently (only the
queues in the registry snapshot change, each by the per-queue body); on a
full queue exactly one oldest item is dropped before the new payload is
enqueued; if even the retried enqueue fails the payload is dropped for
that subscriber alone; and a queue's contents after any publish sequence
is a drop-oldest suffix of the published order. -/
theorem C7_publish_isolation :
    (∀ (bus : EventBus) (p : String) (h : Nat), h ∈ bus.subscribers →
        (publish p bus).queues h = publishQueue p (bus.queues h))
    ∧ (∀ (bus : EventBus) (p : String) (h : Nat), h ∉ bus.subscribers →
        (publish p bus).queues h = bus.queues h)
    ∧ (∀ (q : List String) (p : String), q.length < QUEUE_MAXSIZE →
        publishQueue p q = q ++ [p])
    ∧ (∀ (q : List String) (p : String), q.length = QUEUE_MAXSIZE →
        publishQueue p q = q.drop 1 ++ [p])
    ∧ (∀ (q q₁ : List String) (p x : String), put_nowait q p = none →
        get_nowait q = some (x, q₁) → put_nowait q₁ p = none →
        publishQueue p q = q₁)
    ∧ (∀ (ps : List String) (q : List String), q.length ≤ QUEUE_MAXSIZE →
        publishSeq ps q = (q ++ ps).drop (q.length + ps.length - QUEUE_MAXSIZE)) := by
  refine ⟨?_, ?_, ?_, ?_, ?_, ?_⟩
  · intro bus p h hm; simp [publish, hm]
  · intro bus p h hm; simp [publish, hm]
  · intro q p hlt; exact publishQueue_not_full p q hlt
  · intro q p heq; exact publishQueue_full p q heq
  · intro q q₁ p x h1 h2 h3; simp [publishQueue, h1, h2, h3]
  · intro ps q hq; exact publishSeq_suffix ps q hq

/-- C7 witness: concrete instances of the publish behaviour. -/
theorem C7_publish_isolation_witness :
    (publish "p" ⟨{0}, fun _ => ["a"]⟩).queues 0 = ["a", "p"]
    ∧ (publish "p" ⟨{0}, fun _ => ["a"]⟩).queues 1 = ["a"]
    ∧ publishQueue "x" ["a", "b"] = ["a", "b", "x"]
    ∧ publishSeq ["a", "b", "c"] [] = ["a", "b", "c"] := by
  refine ⟨?_, ?_, ?_, ?_⟩
  · rw [C7_publish_isolation.1 ⟨{0}, fun _ => ["a"]⟩ "p" 0 (by decide)]
    decide
  · exact C7_publish_isolation.2.1 ⟨{0}, fun _ => ["a"]⟩ "p" 1 (by decide)
  · rw [C7_publish_isolation.2.2.1 ["a", "b"] "x" (by decide)]
    decide
  · rw [C7_publish_isolation.2.2.2.2.2 ["a", "b", "c"] [] (by decide)]
    decide

/-! ## C8 -/

/-- C8: unsubscribing an absent handle is a no-op, and unsubscribing twice
equals unsubscribing once. -/
theorem C8_unsubscribe_idempotent :
    (∀ (bus : EventBus) (h : Nat), h ∉ bus.subscribers → unsubscribe h bus = bus)
    ∧ (∀ (bus : EventBus) (h : Nat),
        unsubscribe h (unsubscribe h bus) = unsubscribe h bus) := by
  constructor
  · intro bus h hm
    show ({ bus with subscribers := bus.subscribers.erase h } : EventBus) = bus
    rw [Finset.erase_eq_of_not_mem hm]
  · intro bus h
    show ({ subscribers := (bus.subscribers.erase h).erase h,
            queues := bus.queues } : EventBus)
        = { subscribers := bus.subscribers.erase h, queues := bus.queues }
    rw [Finset.erase_idem]

/-- C8 witness. -/
theorem C8_unsubscribe_idempotent_witness :
    unsubscribe 5 (⟨{1, 2}, fun _ => []⟩ : EventBus) = ⟨{1, 2}, fun _ => []⟩
    ∧ unsubscribe 1 (unsubscribe 1 (⟨{1, 2}, fun _ => []⟩ : EventBus))
        = unsubscribe 1 ⟨{1, 2}, fun _ => []⟩ :=
  ⟨C8_unsubscribe_idempotent.1 ⟨{1, 2}, fun _ => []⟩ 5 (by decide),
   C8_unsubscribe_idempotent.2 ⟨{1, 2}, fun _ => []⟩ 1⟩

/-! ## C9 -/

/-- `readline` consumes at least one character of a nonempty stream. -/
theorem readline_ne_nil (c : Char) (s' : List Char) : readline (c :: s') ≠ [] := by
  simp only [readline]
  split
  · simp
  · rename_i h
    intro hnil
    rw [hnil] at h
    simp at h

/-- `readline` never reads past the remaining content. -/
theorem readline_length_le (s : List Char) : (readline s).length ≤ s.length := by
  simp only [readline]
  split
  · rename_i h
    rw [List.length_append]
    simp only [List.length_singleton]
    omega
  · exact (List.takeWhile_prefix _).length_le

/-- The position returned by the read loop is the start position plus
everything that was read (the loop always reaches end of stream). -/
theorem readLoopAux_snd : ∀ (fuel : Nat) (s : List Char) (pos : Nat),
    s.length ≤ fuel → (readLoopAux fuel s pos).2 = pos + s.length := by
  intro fuel
  induction fuel with
  | zero =>
    intro s pos hs
    have hnil : s = [] := List.eq_nil_of_length_eq_zero (Nat.le_zero.mp hs)
    subst hnil
    rfl
  | succ fuel ih =>
    intro s pos hs
    rcases s with _ | ⟨c, s'⟩
    · rfl
    · rcases hln : readline (c :: s') with _ | ⟨x, xs⟩
      · exact absurd hln (readline_ne_nil c s')
      · have hle : (x :: xs).length ≤ (c :: s').length := by
          rw [← hln]; exact readline_length_le _
        have h2 : (readLoopAux (fuel + 1) (c :: s') pos).2
            = (readLoopAux fuel ((c :: s').drop (x :: xs).length)
                (pos + (x :: xs).length)).2 := by
          simp [readLoopAux, hln]
        have hfuel : ((c :: s').drop (x :: xs).length).length ≤ fuel := by
          rw [List.length_drop, List.length_cons, List.length_cons]
          rw [List.length_cons] at hs
          omega
        rw [h2, ih _ _ hfuel, List.length_drop]
        omega

/-- End-of-read position of a poll that starts inside the file: the end of
the file. -/
theorem readLoop_snd (content : List Char) (pos : Nat)
    (h : pos ≤ content.length) : (readLoop content pos).2 = content.length := by
  rw [readLoop, readLoopAux_snd _ _ _ (le_refl _), List.length_drop]
  omega

/-- The adjusted offset never exceeds the current file size. -/
theorem resetCursor_pos_le (f : FileState) (cur : TailCursor) :
    (resetCursor f cur).pos ≤ f.content.length := by
  simp only [resetCursor]
  split_ifs with h1 h2 h3
  · exact Nat.zero_le _
  · exact Nat.le_of_not_lt h2
  · exact Nat.zero_le _
  · exact Nat.le_of_not_lt h3

/-- Identity change or truncation resets the cursor to offset 0 with the
current identity recorded. -/
theorem resetCursor_reset (f : FileState) (cur : TailCursor)
    (h : cur.last_inode ≠ some f.ident ∨ f.content.length < cur.pos) :
    resetCursor f cur = { pos := 0, last_inode := some f.ident } := by
  simp only [resetCursor]
  split_ifs with h1 h2 h3
  · rfl
  · rfl
  · have hident : cur.last_inode = some f.ident := not_not.mp h1
    show ({ cur with pos := 0 } : TailCursor) = _
    rw [TailCursor.mk.injEq]
    exact ⟨rfl, hident⟩
  · rcases h with h | h
    · exact absurd h h1
    · exact absurd h h3

/-- C9 counterexample: a file whose final line is unterminated.  The code
reads the incomplete line too and records the end-of-file position (3),
not the position after the available complete lines (0), so the claim's
"after reading all available complete lines the new position is recorded"
is false as stated. -/
theorem C9_counterexample :
    (pollStep ⟨(0, 0), "abc".data⟩ ⟨0, some (0, 0)⟩).1.pos = 3
    ∧ specCompleteLinesPos "abc".data 0 = 0
    ∧ (pollStep ⟨(0, 0), "abc".data⟩ ⟨0, some (0, 0)⟩).1.pos
        ≠ specCompleteLinesPos "abc".data 0 :=
  ⟨by decide, by decide, by decide⟩

/-- C9 (amended): if the file identity differs from the cursor's or the
size dropped below the stored offset, the offset is reset to 0 before
reading (and the new identity recorded), so the read covers the whole
file; and the position recorded on exiting the read loop — which consumes
every remaining line, including a trailing unterminated one — is the end
of the file, so the next poll resumes exactly there. -/
theorem C9_tailer_poll (f : FileState) (cur : TailCursor) :
    ((cur.last_inode ≠ some f.ident ∨ f.content.length < cur.pos) →
      resetCursor f cur = { pos := 0, last_inode := some f.ident }
      ∧ (pollStep f cur).2
          = (readLoop f.content 0).1.filterMap (fun ln => parse_line ⟨ln⟩))
    ∧ (pollStep f cur).1.pos = f.content.length := by
  constructor
  · intro h
    have hreset := resetCursor_reset f cur h
    refine ⟨hreset, ?_⟩
    show (readLoop f.content (resetCursor f cur).pos).1.filterMap
        (fun ln => parse_line ⟨ln⟩) = _
    rw [hreset]
  · show (readLoop f.content (resetCursor f cur).pos).2 = f.content.length
    exact readLoop_snd f.content _ (resetCursor_pos_le f cur)

/-- C9 witness: rotated identity forces a reset and the recorded offset is
the file size. -/
theorem C9_tailer_poll_witness :
    resetCursor ⟨(1, 2), "ab\n".data⟩ ⟨7, some (3, 4)⟩
        = { pos := 0, last_inode := some (1, 2) }
    ∧ (pollStep ⟨(1, 2), "ab\n".data⟩ ⟨7, some (3, 4)⟩).1.pos = 3 :=
  ⟨((C9_tailer_poll ⟨(1, 2), "ab\n".data⟩ ⟨7, some (3, 4)⟩).1 (by decide)).1,
   ((C9_tailer_poll ⟨(1, 2), "ab\n".data⟩ ⟨7, some (3, 4)⟩).2).trans (by decide)⟩

/-! ## C10 -/

/-- C10: every event returned by `parse_line` carries
`raw = line.rstrip("\n")` (trailing newlines stripped, leading whitespace
preserved) and a whitespace-stripped message (stripping the message again
changes nothing). -/
theorem C10_raw_and_message (line : String) (ev : AntiTamperingEvent)
    (h : parse_line line = some ev) :
    ev.raw = some ⟨rstripNl line.data⟩
    ∧ pstrip ev.message.data = ev.message.data := by
  cases hw : matchWarnRe (pstrip line.data) with
  | none => rw [parse_line, hw] at h; exact Option.noConfusion h
  | some r =>
    obtain ⟨ts, tag, msgR⟩ := r
    cases hs : mismatchSearch (pstrip msgR) with
    | some caps =>
      have he : parse_line line = some
          { ts := ⟨ts⟩, tag := ⟨tag⟩, severity := "danger",
            message := ⟨pstrip msgR⟩, path := some ⟨caps.path⟩,
            size := some (digitsToNat caps.size : Int),
            verify_fd := some (toIntCap caps.verify_fd),
            stored := some ⟨caps.stored⟩, computed := some ⟨caps.computed⟩,
            raw := some ⟨rstripNl line.data⟩ } := by
        simp [parse_line, hw, hs]
      rw [he] at h
      obtain rfl := Option.some.inj h
      exact ⟨rfl, pstrip_idem msgR⟩
    | none =>
      cases h2 : missingHashBranch (pstrip msgR) with
      | some fphp =>
        obtain ⟨fp, hp⟩ := fphp
        have he : parse_line line = some
            { ts := ⟨ts⟩, tag := ⟨tag⟩, severity := "warning",
              message := ⟨pstrip msgR⟩, path := some ⟨fp⟩,
              hash_path := some ⟨hp⟩, raw := some ⟨rstripNl line.data⟩ } := by
          simp [parse_line, hw, hs, h2]
        rw [he] at h
        obtain rfl := Option.some.inj h
        exact ⟨rfl, pstrip_idem msgR⟩
      | none =>
        cases h3 : fdFailBranch (pstrip msgR) with
        | some fp =>
          have he : parse_line line = some
              { ts := ⟨ts⟩, tag := ⟨tag⟩, severity := "warning",
                message := ⟨pstrip msgR⟩, path := some ⟨fp⟩,
                raw := some ⟨rstripNl line.data⟩ } := by
            simp [parse_line, hw, hs, h2, h3]
          rw [he] at h
          obtain rfl := Option.some.inj h
          exact ⟨rfl, pstrip_idem msgR⟩
        | none =>
          have he : parse_line line = some
              { ts := ⟨ts⟩, tag := ⟨tag⟩, severity := "warning",
                message := ⟨pstrip msgR⟩, raw := some ⟨rstripNl line.data⟩ } := by
            simp [parse_line, hw, hs, h2, h3]
          rw [he] at h
          obtain rfl := Option.some.inj h
          exact ⟨rfl, pstrip_idem msgR⟩

/-- C10 witness: leading whitespace survives in `raw`, the trailing
newline does not, and the message is stripped. -/
theorem C10_raw_and_message_witness :
    parse_line "  [t] - [ANTI_TAMPERING_X] m \n"
      = some { ts := "t", tag := "ANTI_TAMPERING_X", severity := "warning",
               message := "m", raw := some "  [t] - [ANTI_TAMPERING_X] m " }
    ∧ ({ ts := "t", tag := "ANTI_TAMPERING_X", severity := "warning",
         message := "m",
         raw := some "  [t] - [ANTI_TAMPERING_X] m " } : AntiTamperingEvent).raw
        = some ⟨rstripNl "  [t] - [ANTI_TAMPERING_X] m \n".data⟩
    ∧ pstrip ("m" : String).data = ("m" : String).data := by
  have h := C10_raw_and_message "  [t] - [ANTI_TAMPERING_X] m \n"
    { ts := "t", tag := "ANTI_TAMPERING_X", severity := "warning",
      message := "m", raw := some "  [t] - [ANTI_TAMPERING_X] m " } (by decide)
  exact ⟨by decide, h.1, h.2⟩

end TamperGuard
